import Mathlib

/-!
Shallow embedding of the bulk tracking uploader (src/app.py).

The program is a single script: it loads an uploaded file into a data frame
(load_dataframe), validates that the three required columns are present
(validate_df), fills defaults for the two optional columns, and then runs a
strictly sequential per-row loop that posts a shipment-tracking record
(post_tracking) and, only when that call returned 200 or 201, marks the
order completed (complete_order), collecting one result dict per row and
exporting the result list as a CSV download.

HTTP traffic is modelled by an oracle (HttpStub) supplying the status code
and body of each remote response; every request the embedded code would
send is recorded as a NetCall value so that theorems can speak about which
remote calls were made.  Python integer coercion (int(x)), truthiness and
str(x) are modelled on a small Value type covering the cell values that a
pandas row dict can hold here.  The CSV writer and reader used for the
results artifact are modelled character by character with the usual
minimal-quoting rules that the pandas to_csv / read_csv pair implements.
-/

/-! ## Decimal digits, kernel-computable -/

/-- Fuel-driven little-endian base-10 digits; fuel at least n makes it total. -/
def digitsAux : Nat → Nat → List Nat
  | _, 0 => []
  | 0, _ + 1 => []
  | fuel + 1, n + 1 => ((n + 1) % 10) :: digitsAux fuel ((n + 1) / 10)

/-- Little-endian base-10 digits of a natural number. -/
def natDigits (n : Nat) : List Nat := digitsAux n n

/-- Decimal rendering of a natural number, as characters. -/
def natRepr (n : Nat) : List Char :=
  if n = 0 then ['0'] else ((natDigits n).map Nat.digitChar).reverse

/-- Decimal rendering of an integer, as characters. -/
def intRepr (n : Int) : List Char :=
  if n < 0 then '-' :: natRepr n.natAbs else natRepr n.natAbs

/-- Numeric value of a decimal digit character. -/
def charDigitVal (c : Char) : Nat := c.toNat - '0'.toNat

/-- Parse a cell consisting solely of decimal digits into a natural number. -/
def parseNatCell (s : List Char) : Option Nat :=
  if s ≠ [] ∧ s.all Char.isDigit then
    some (Nat.ofDigits 10 (s.reverse.map charDigitVal))
  else Option.none

/-- Parse an optionally minus-signed decimal cell into an integer. -/
def parseIntCell (s : List Char) : Option Int :=
  match s with
  | '-' :: rest => (parseNatCell rest).map (fun n => -(n : Int))
  | _ => (parseNatCell s).map (fun n => (n : Int))

/-! ## JSON values -/

mutual

/-- JSON-like data: request payload values, response bodies, result markers. -/
inductive Json where
  | str (s : String)
  | int (n : Int)
  | bool (b : Bool)
  | null
  | obj (fields : JsonFields)

/-- Field list of a JSON object. -/
inductive JsonFields where
  | nil
  | cons (key : String) (val : Json) (rest : JsonFields)

end

/-! ## Python cell values -/

/-- Scalar values a pandas row dict holds in this program. -/
inductive Value where
  | int (n : Int)
  | str (s : String)
  | bool (b : Bool)
  | none
  deriving Repr, DecidableEq

/-- Python truthiness of a cell value. -/
def Value.truthy : Value → Bool
  | .int n => n != 0
  | .str s => s != ""
  | .bool b => b
  | .none => false

/-- Python int(x) on a cell value: integer-like values coerce, others raise. -/
def Value.toIntPy : Value → Option Int
  | .int n => some n
  | .bool b => some (if b then 1 else 0)
  | .str s => parseIntCell s.data
  | .none => Option.none

/-- Python str(x) on a cell value. -/
def Value.toStrPy : Value → String
  | .int n => toString n
  | .str s => s
  | .bool b => if b then "True" else "False"
  | .none => "None"

/-- One row dict, as produced by DataFrame.to_dict with records orientation. -/
abbrev Row := List (String × Value)

/-- Python dict get with a default: row.get(k, d). -/
def rowGetD (r : Row) (k : String) (d : Value) : Value :=
  match List.lookup k r with
  | some v => v
  | Option.none => d

/-- Python dict get without default: row.get(k), absent keys give None. -/
def rowGet (r : Row) (k : String) : Value := rowGetD r k Value.none

/-- Python dict subscript row[k]; the keys used are validated columns, a
missing key is modelled as the None value. -/
def rowItem (r : Row) (k : String) : Value := rowGet r k

/-- Functional update of a row dict: row[k] = v. -/
def setValue (r : Row) (k : String) (v : Value) : Row :=
  (r.filter (fun p => !(p.1 == k))) ++ [(k, v)]

/-! ## Data frames -/

/-- A pandas DataFrame abstracted to its column list and its record rows. -/
structure DataFrame where
  cols : List String
  rows : List Row
  deriving Repr, DecidableEq

/-- Lower-case a string, as Python str.lower does for ASCII names. -/
def strLower (s : String) : String := String.mk (s.data.map Char.toLower)

/-- Boolean suffix test on character lists, as Python str.endswith. -/
def hasSuffix (suf l : List Char) : Bool := decide (suf <:+ l)

/-- Embedding of load_dataframe (src/app.py lines 66-79).  The three pandas
parsers are external library calls, passed in as oracles: each either yields
a frame or fails.  Only the Excel branch catches its failure, reporting a
diagnostic and returning an empty frame; the other branches let a parser
error propagate.  The second component of a successful result is the list
of diagnostics shown to the user. -/
def load_dataframe (name : String)
    (jsonRes csvRes excelRes : Except String DataFrame) :
    Except String (DataFrame × List String) :=
  let low := (strLower name).data
  if hasSuffix ".json".data low then jsonRes.map (fun df => (df, []))
  else if hasSuffix ".csv".data low then csvRes.map (fun df => (df, []))
  else if hasSuffix ".xlsx".data low then
    match excelRes with
    | .ok df => .ok (df, [])
    | .error e =>
      .ok (⟨[], []⟩, ["Excel read error. Install openpyxl. Details: " ++ e])
  else .ok (⟨[], []⟩, [])

/-- Embedding of validate_df (src/app.py lines 81-84): required columns are
order_id, tracking_provider, tracking_number; returns whether none is
missing together with the missing list. -/
def validate_df (df : DataFrame) : Bool × List String :=
  let required := ["order_id", "tracking_provider", "tracking_number"]
  let missing := required.filter (fun c => !(decide (c ∈ df.cols)))
  (missing.length == 0, missing)

/-- Embedding of the default-filling pass (src/app.py lines 121-125): each
optional column absent from the frame is appended with a uniform value,
1 for status_shipped and 0 for replace_tracking. -/
def fillDefaults (df : DataFrame) : DataFrame :=
  let df1 :=
    if "status_shipped" ∈ df.cols then df
    else ⟨df.cols ++ ["status_shipped"],
          df.rows.map (fun r => setValue r "status_shipped" (Value.int 1))⟩
  if "replace_tracking" ∈ df1.cols then df1
  else ⟨df1.cols ++ ["replace_tracking"],
        df1.rows.map (fun r => setValue r "replace_tracking" (Value.int 0))⟩

/-! ## Remote update client -/

/-- Right-strip slashes from the site URL, as site_url.rstrip. -/
def rstripSlash (s : String) : String :=
  String.mk ((s.data.reverse.dropWhile (fun c => c == '/')).reverse)

/-- Target of the shipment-tracking POST for one order. -/
def trackingUrl (site : String) (oid : Int) : String :=
  rstripSlash site ++ "/wp-json/wc-shipment-tracking/v3/orders/" ++
    String.mk (intRepr oid) ++ "/shipment-trackings"

/-- Target of the order-completion PUT for one order. -/
def orderUrl (site : String) (oid : Int) : String :=
  rstripSlash site ++ "/wp-json/wc/v3/orders/" ++ String.mk (intRepr oid)

/-- Failure of a Python int(x) coercion, with the offending field. -/
structure CoercionError where
  field : String
  deriving Repr, DecidableEq

/-- Body of a remote response: either JSON that r.json() parses, or the raw
text that the except branch falls back to. -/
inductive RespBody where
  | parsed (j : Json)
  | raw (t : String)

/-- Oracle for the remote site: status code and body of the POST and PUT
responses, as functions of the request URL and JSON payload. -/
structure HttpStub where
  post : String → List (String × Json) → Nat × RespBody
  put : String → List (String × Json) → Nat × RespBody

/-- Response data after the r.json() try/except fallback of src/app.py. -/
def respData : RespBody → Json
  | .parsed j => j
  | .raw t => .obj (.cons "text" (.str t) .nil)

/-- One remote request the program sends, recorded for the theorems. -/
inductive NetCall where
  | attach (url : String) (payload : List (String × Json))
  | complete (url : String) (orderId : Int)

/-- Whether a recorded call is the shipment-tracking POST. -/
def isAttachCall : NetCall → Bool
  | .attach _ _ => true
  | .complete _ _ => false

/-- Whether a recorded call is the order-completion PUT. -/
def isCompleteCall : NetCall → Bool
  | .attach _ _ => false
  | .complete _ _ => true

/-- Payload dict of post_tracking before None values are dropped
(src/app.py lines 89-95); the two int coercions may raise. -/
def buildTrackingPayload (row : Row) :
    Except CoercionError (List (String × Option Json)) :=
  match (rowGetD row "status_shipped" (Value.int 1)).toIntPy,
      (rowGetD row "replace_tracking" (Value.int 0)).toIntPy with
  | some ss, some rt =>
    let ds := rowGet row "date_shipped"
    .ok [("tracking_provider", some (.str (rowItem row "tracking_provider").toStrPy)),
         ("tracking_number", some (.str (rowItem row "tracking_number").toStrPy)),
         ("date_shipped", if ds.truthy then some (.str ds.toStrPy) else Option.none),
         ("status_shipped", some (.int ss)),
         ("replace_tracking", some (.int rt))]
  | Option.none, _ => .error ⟨"status_shipped"⟩
  | _, Option.none => .error ⟨"replace_tracking"⟩

/-- Embedding of post_tracking (src/app.py lines 86-102): coerce order_id,
build the payload, drop the None-valued entries, send the POST, and return
the status code with the parsed-or-fallback body, together with the
recorded request. -/
def post_tracking (site : String) (http : HttpStub) (row : Row) :
    Except CoercionError ((Nat × Json) × NetCall) :=
  match (rowItem row "order_id").toIntPy with
  | Option.none => .error ⟨"order_id"⟩
  | some oid =>
    match buildTrackingPayload row with
    | .error e => .error e
    | .ok pre =>
      let url := trackingUrl site oid
      let payload := pre.filterMap (fun p => p.2.map (fun j => (p.1, j)))
      let (status, body) := http.post url payload
      .ok ((status, respData body), .attach url payload)

/-- Embedding of complete_order (src/app.py lines 104-112): PUT the
completed status to the order resource; never raises. -/
def complete_order (site : String) (http : HttpStub) (oid : Int) :
    (Nat × Json) × NetCall :=
  let url := orderUrl site oid
  let payload := [("status", Json.str "completed")]
  let (status, body) := http.put url payload
  ((status, respData body), .complete url oid)

/-! ## Bulk update orchestration -/

/-- Per-row result dict appended to the results list
(src/app.py lines 152-160). -/
structure RowResult where
  order_id : Int
  tracking_status : Nat
  tracking_ok : Bool
  complete_status : Option Nat
  complete_ok : Bool
  tracking_response : Json
  complete_response : Json

/-- Marker stored as complete_response when the attach call failed. -/
def skippedMarker : Json := .obj (.cons "skipped" (.bool true) .nil)

/-- Body of the bulk-update loop for one row (src/app.py lines 137-160):
coerce order_id, post the tracking record, and complete the order if and
only if the POST returned 200 or 201; a coercion failure is an uncaught
exception, modelled as the error case. -/
def stepRow (site : String) (http : HttpStub) (row : Row) :
    Except CoercionError (RowResult × List NetCall) :=
  match (rowItem row "order_id").toIntPy with
  | Option.none => .error ⟨"order_id"⟩
  | some oid =>
    match post_tracking site http row with
    | .error e => .error e
    | .ok ((t_status, t_data), attachCall) =>
      let success_tracking := t_status == 200 || t_status == 201
      if success_tracking then
        let ((c_status, c_data), cCall) := complete_order site http oid
        .ok (⟨oid, t_status, success_tracking, some c_status,
              c_status == 200 || c_status == 201, t_data, c_data⟩,
             [attachCall, cCall])
      else
        .ok (⟨oid, t_status, success_tracking, Option.none, false, t_data,
              skippedMarker⟩,
             [attachCall])

/-- The bulk-update loop (src/app.py lines 132-163) over the record rows:
strictly sequential, one result per processed row, paired with the remote
calls that row issued; an uncaught coercion failure aborts the loop, so
the second component carries the error and the first only the rows handled
before it. -/
def runBulk (site : String) (http : HttpStub) :
    List Row → List (RowResult × List NetCall) × Option CoercionError
  | [] => ([], Option.none)
  | row :: rest =>
    match stepRow site http row with
    | .error e => ([], some e)
    | .ok pr =>
      let (prs, err) := runBulk site http rest
      (pr :: prs, err)

/-! ## Results CSV artifact -/

/-- Escapes Python repr applies inside a string delimited by delim: the
backslash, the delimiter itself, newline, carriage return and tab get a
backslash form, other ASCII control characters a two-digit hex escape. -/
def pyEscapeChar (delim : Char) (c : Char) : List Char :=
  if c == '\\' then ['\\', '\\']
  else if c == delim then ['\\', delim]
  else if c == '\n' then ['\\', 'n']
  else if c == '\r' then ['\\', 'r']
  else if c == '\t' then ['\\', 't']
  else if c.toNat < 32 || c.toNat == 127 then
    ['\\', 'x', Nat.digitChar (c.toNat / 16), Nat.digitChar (c.toNat % 16)]
  else [c]

/-- Python repr of a string, as it appears inside str() of a dict: single
quotes as delimiter, except double quotes when the string contains a single
quote and no double quote; delimiter, backslash and control characters are
escaped. -/
def pyStrRepr (s : String) : String :=
  let delim :=
    if s.data.contains (Char.ofNat 39) && !(s.data.contains '"') then '"'
    else Char.ofNat 39
  String.mk (delim :: s.data.flatMap (pyEscapeChar delim) ++ [delim])

mutual

/-- Python str() of a JSON-like value, as pandas renders an object cell. -/
def pyRepr : Json → String
  | .str s => pyStrRepr s
  | .int n => String.mk (intRepr n)
  | .bool b => if b then "True" else "False"
  | .null => "None"
  | .obj fs => "\x7b" ++ pyReprFields fs ++ "\x7d"

/-- Comma-separated field renderings inside a dict repr. -/
def pyReprFields : JsonFields → String
  | .nil => ""
  | .cons k v .nil => pyStrRepr k ++ ": " ++ pyRepr v
  | .cons k v (.cons k2 v2 rest) =>
    pyStrRepr k ++ ": " ++ pyRepr v ++ ", " ++ pyReprFields (.cons k2 v2 rest)

end

/-- Whether a CSV cell must be quoted under minimal quoting. -/
def needsQuote (c : Char) : Bool :=
  c == ',' || c == '"' || c == '\n' || c == '\r'

/-- Double every quote character inside a quoted CSV cell. -/
def dupQuotes : List Char → List Char
  | [] => []
  | c :: rest =>
    if c == '"' then '"' :: '"' :: dupQuotes rest else c :: dupQuotes rest

/-- Encode one CSV cell with minimal quoting. -/
def escapeCell (s : List Char) : List Char :=
  if s.any needsQuote then '"' :: (dupQuotes s ++ ['"']) else s

/-- Encode one CSV record: cells joined by commas. -/
def renderRecord : List (List Char) → List Char
  | [] => []
  | [c] => escapeCell c
  | c :: cs => escapeCell c ++ ',' :: renderRecord cs

/-- Encode a CSV document: each record followed by a newline. -/
def renderCsv (records : List (List (List Char))) : List Char :=
  (records.map (fun r => renderRecord r ++ ['\n'])).flatten

/-- Read the body of a quoted CSV cell, stopping at the closing quote. -/
def parseQuotedBody : List Char → Option (List Char × List Char)
  | [] => Option.none
  | c :: rest =>
    if c == '"' then
      match rest with
      | c2 :: rest2 =>
        if c2 == '"' then
          (parseQuotedBody rest2).map (fun p => ('"' :: p.1, p.2))
        else some ([], rest)
      | [] => some ([], [])
    else (parseQuotedBody rest).map (fun p => (c :: p.1, p.2))

/-- Read an unquoted CSV cell, stopping before a comma or newline. -/
def parseBareCell : List Char → List Char × List Char
  | [] => ([], [])
  | c :: rest =>
    if c == ',' || c == '\n' then ([], c :: rest)
    else
      let (cell, r) := parseBareCell rest
      (c :: cell, r)

/-- Read one CSV cell, quoted or not. -/
def parseCell : List Char → Option (List Char × List Char)
  | [] => some ([], [])
  | c :: rest =>
    if c == '"' then parseQuotedBody rest else some (parseBareCell (c :: rest))

/-- Read the cells of one CSV record and the input following its newline. -/
def parseCells : Nat → List Char → Option (List (List Char) × List Char)
  | 0, _ => Option.none
  | fuel + 1, input =>
    match parseCell input with
    | Option.none => Option.none
    | some (cell, rest) =>
      match rest with
      | ',' :: r => (parseCells fuel r).map (fun p => (cell :: p.1, p.2))
      | '\n' :: r => some ([cell], r)
      | [] => some ([cell], [])
      | _ => Option.none

/-- Read all CSV records. -/
def parseRecs : Nat → List Char → Option (List (List (List Char)))
  | 0, _ => Option.none
  | _ + 1, [] => some []
  | fuel + 1, input =>
    match parseCells (input.length + 1) input with
    | Option.none => Option.none
    | some (cells, rest) => (parseRecs fuel rest).map (fun rs => cells :: rs)

/-- Parse a CSV document into its records. -/
def parseCsv (chars : List Char) : Option (List (List (List Char))) :=
  parseRecs (chars.length + 1) chars

/-- Header cells of the results artifact, in dict insertion order
(src/app.py lines 152-160). -/
def headerCells : List (List Char) :=
  ["order_id".data, "tracking_status".data, "tracking_ok".data,
   "complete_status".data, "complete_ok".data, "tracking_response".data,
   "complete_response".data]

/-- Python bool rendering used by to_csv. -/
def boolReprPy (b : Bool) : List Char :=
  if b then "True".data else "False".data

/-- Rendering of the nullable completion status.  The flag says whether any
row of the frame has a null completion status: then pandas holds the column
as floats, an integer prints with a trailing .0 and None as the empty cell;
otherwise the column is integer and prints plain. -/
def optStatusRepr (anyNone : Bool) : Option Nat → List Char
  | Option.none => []
  | some n => if anyNone then natRepr n ++ ".0".data else natRepr n

/-- Cells of one result row in the exported artifact; the flag records
whether the completion-status column contains a null anywhere. -/
def rowCells (anyNone : Bool) (r : RowResult) : List (List Char) :=
  [intRepr r.order_id, natRepr r.tracking_status, boolReprPy r.tracking_ok,
   optStatusRepr anyNone r.complete_status, boolReprPy r.complete_ok,
   (pyRepr r.tracking_response).data, (pyRepr r.complete_response).data]

/-- Embedding of the results export (src/app.py lines 166-169): the result
dicts become a frame whose to_csv artifact is offered for download.  A
frame built from the empty list has no columns, so its artifact is a single
newline carrying no header and no data rows. -/
def toCsvString (results : List RowResult) : String :=
  match results with
  | [] => String.mk ['\n']
  | _ =>
    let anyNone := results.any (fun r => r.complete_status.isNone)
    String.mk (renderCsv (headerCells :: results.map (rowCells anyNone)))

/-- Parse a True or False cell back to a boolean, as read_csv infers. -/
def parseBoolCell (s : List Char) : Option Bool :=
  if s = "True".data then some true
  else if s = "False".data then some false
  else Option.none

/-- Project one parsed artifact record to order_id, tracking_ok and
complete_ok. -/
def extractRow (cells : List (List Char)) : Option (Int × Bool × Bool) :=
  match cells with
  | [oid, _, tok, _, cok, _, _] =>
    match parseIntCell oid, parseBoolCell tok, parseBoolCell cok with
    | some i, some t, some c => some (i, t, c)
    | _, _, _ => Option.none
  | _ => Option.none

/-- Re-parse the exported artifact: check the header and recover each data
row with its order_id, tracking_ok and complete_ok values. -/
def readBack (s : String) : Option (List (Int × Bool × Bool)) :=
  match parseCsv s.data with
  | some (header :: dataRows) =>
    if header = headerCells then dataRows.mapM extractRow else Option.none
  | some [] => Option.none
  | Option.none => Option.none

/-! ## The run pipeline -/

/-- Outcome of the post-upload script body (src/app.py lines 114-169) with
the run button pressed: stop at validation, crash on an uncaught coercion
failure, or finish with the per-row results and the exported artifact. -/
inductive PipelineResult where
  | stopped (missing : List String)
  | crashed (done : List (RowResult × List NetCall)) (err : CoercionError)
  | finished (pairs : List (RowResult × List NetCall)) (csv : String)

/-- Embedding of the post-upload script body: validate, stop on missing
columns, fill the optional-column defaults, run the bulk loop, export. -/
def pipeline (site : String) (http : HttpStub) (df : DataFrame) :
    PipelineResult :=
  let v := validate_df df
  if v.1 then
    let df2 := fillDefaults df
    match runBulk site http df2.rows with
    | (pairs, some e) => .crashed pairs e
    | (pairs, Option.none) => .finished pairs (toCsvString (pairs.map Prod.fst))
  else .stopped v.2

/-- Remote calls observable in a pipeline outcome; a run stopped at
validation issued none. -/
def PipelineResult.netCalls : PipelineResult → List NetCall
  | .stopped _ => []
  | .crashed done _ => (done.map Prod.snd).flatten
  | .finished pairs _ => (pairs.map Prod.snd).flatten

/-- Whether every int(x) coercion the loop performs on this row succeeds. -/
def rowCoercible (row : Row) : Bool :=
  ((rowItem row "order_id").toIntPy).isSome &&
  ((rowGetD row "status_shipped" (Value.int 1)).toIntPy).isSome &&
  ((rowGetD row "replace_tracking" (Value.int 0)).toIntPy).isSome


/-! ## Concrete fixtures for the witnesses -/

/-- Site URL used by the concrete witnesses. -/
def siteW : String := "https://store.example"

/-- Oracle whose attach POST returns 201 and whose completion PUT returns 200. -/
def httpOk : HttpStub :=
  ⟨fun _ _ => (201, .parsed .null), fun _ _ => (200, .parsed .null)⟩

/-- Oracle whose attach POST returns 422. -/
def httpRefuse : HttpStub :=
  ⟨fun _ _ => (422, .parsed .null), fun _ _ => (200, .parsed .null)⟩

/-- A well-formed input row. -/
def rowW : Row :=
  [("order_id", Value.int 123), ("tracking_provider", Value.str "Fedex"),
   ("tracking_number", Value.str "882687730973")]

/-- A row whose order_id is not integer-like. -/
def rowBad : Row :=
  [("order_id", Value.str "ABC"), ("tracking_provider", Value.str "Fedex"),
   ("tracking_number", Value.str "1")]

/-- Attach payload the client builds for rowW: no date, defaults filled. -/
def payloadW : List (String × Json) :=
  [("tracking_provider", .str "Fedex"), ("tracking_number", .str "882687730973"),
   ("status_shipped", .int 1), ("replace_tracking", .int 0)]

/-- Result row produced for rowW under httpOk. -/
def resOkW : RowResult :=
  ⟨123, 201, true, some 200, true, Json.null, Json.null⟩

/-- Calls recorded for rowW under httpOk. -/
def callsOkW : List NetCall :=
  [.attach (trackingUrl siteW 123) payloadW, .complete (orderUrl siteW 123) 123]

/-- Result row produced for rowW under httpRefuse. -/
def resRefuseW : RowResult :=
  ⟨123, 422, false, Option.none, false, Json.null, skippedMarker⟩

/-- Calls recorded for rowW under httpRefuse. -/
def callsRefuseW : List NetCall :=
  [.attach (trackingUrl siteW 123) payloadW]

/-- A frame that passes validation and has no rows. -/
def dfEmpty : DataFrame :=
  ⟨["order_id", "tracking_provider", "tracking_number"], []⟩

/-- A frame missing the two tracking columns. -/
def dfMissing : DataFrame := ⟨["order_id"], [[("order_id", Value.int 1)]]⟩

/-- A frame with one row and no optional columns. -/
def dfOne : DataFrame :=
  ⟨["order_id", "tracking_provider", "tracking_number"], [rowW]⟩

/-! ## Lemmas: decimal rendering round-trips -/

theorem digitsAux_eq (fuel : Nat) :
    ∀ n, n ≤ fuel → digitsAux fuel n = Nat.digits 10 n := by
  induction fuel with
  | zero =>
    intro n h
    interval_cases n
    simp [digitsAux]
  | succ f ih =>
    intro n h
    match n with
    | 0 => simp [digitsAux]
    | m + 1 =>
      have h2 : (m + 1) / 10 ≤ f := by
        have := Nat.div_lt_self (Nat.succ_pos m) (by norm_num : 1 < 10)
        omega
      have h10 : (10 : Nat) = 8 + 2 := by norm_num
      rw [digitsAux, ih _ h2, h10, Nat.digits_add_two_add_one]

theorem natDigits_eq (n : Nat) : natDigits n = Nat.digits 10 n :=
  digitsAux_eq n n le_rfl

theorem natDigits_lt (n d : Nat) (h : d ∈ natDigits n) : d < 10 := by
  rw [natDigits_eq] at h
  exact Nat.digits_lt_base (by norm_num) h

theorem charDigitVal_digitChar (d : Nat) (h : d < 10) :
    charDigitVal (Nat.digitChar d) = d := by
  interval_cases d <;> decide

theorem digitChar_isDigit (d : Nat) (h : d < 10) :
    (Nat.digitChar d).isDigit = true := by
  interval_cases d <;> decide

theorem mem_natRepr_isDigit (n : Nat) (c : Char) (h : c ∈ natRepr n) :
    c.isDigit = true := by
  unfold natRepr at h
  by_cases h0 : n = 0
  · simp [h0] at h
    simp [h]
  · rw [if_neg h0, List.mem_reverse, List.mem_map] at h
    obtain ⟨d, hd, rfl⟩ := h
    exact digitChar_isDigit d (natDigits_lt n d hd)

theorem natRepr_ne_nil (n : Nat) : natRepr n ≠ [] := by
  unfold natRepr
  by_cases h0 : n = 0
  · simp [h0]
  · rw [if_neg h0]
    simp only [ne_eq, List.reverse_eq_nil_iff, List.map_eq_nil_iff]
    rw [natDigits_eq]
    exact Nat.digits_ne_nil_iff_ne_zero.mpr h0

theorem parseNatCell_natRepr (n : Nat) : parseNatCell (natRepr n) = some n := by
  unfold parseNatCell
  rw [if_pos]
  · by_cases h0 : n = 0
    · subst h0
      norm_num [natRepr, Nat.ofDigits, charDigitVal]
    · unfold natRepr
      rw [if_neg h0, List.reverse_reverse, List.map_map]
      have hmap : (natDigits n).map (charDigitVal ∘ Nat.digitChar) = natDigits n := by
        have h1 : ∀ d ∈ natDigits n, (charDigitVal ∘ Nat.digitChar) d = id d := by
          intro d hd
          exact charDigitVal_digitChar d (natDigits_lt n d hd)
        rw [List.map_congr_left h1, List.map_id]
      rw [hmap, natDigits_eq, Nat.ofDigits_digits]
  · constructor
    · exact natRepr_ne_nil n
    · rw [List.all_eq_true]
      intro c hc
      exact mem_natRepr_isDigit n c hc

theorem parseIntCell_intRepr (n : Int) : parseIntCell (intRepr n) = some n := by
  by_cases hn : n < 0
  · unfold intRepr
    rw [if_pos hn]
    rw [parseIntCell, parseNatCell_natRepr]
    show some (-((n.natAbs : Nat) : Int)) = some n
    congr 1
    omega
  · unfold intRepr
    rw [if_neg hn]
    rcases hr : natRepr n.natAbs with _ | ⟨c, t⟩
    · exact absurd hr (natRepr_ne_nil n.natAbs)
    · have hc : c.isDigit = true := by
        apply mem_natRepr_isDigit n.natAbs
        rw [hr]
        exact List.mem_cons_self c t
      have hcne : c ≠ '-' := by
        intro h
        rw [h] at hc
        exact absurd hc (by decide)
      rw [parseIntCell.eq_def]
      split
      · rename_i rest heq
        exact absurd (List.cons.injEq .. ▸ heq).1 hcne
      · rw [← hr, parseNatCell_natRepr]
        show some ((n.natAbs : Int)) = some n
        congr 1
        omega

/-! ## Lemmas: CSV encode and parse round-trip -/

theorem renderRecord_single (c : List Char) : renderRecord [c] = escapeCell c := rfl

theorem renderRecord_cons₂ (c c2 : List Char) (cs2 : List (List Char)) :
    renderRecord (c :: c2 :: cs2) = escapeCell c ++ ',' :: renderRecord (c2 :: cs2) := rfl

theorem parseQuotedBody_dupQuotes (s rest : List Char)
    (h : rest.head? ≠ some '"') :
    parseQuotedBody (dupQuotes s ++ '"' :: rest) = some (s, rest) := by
  induction s with
  | nil =>
    match rest with
    | [] => rfl
    | c2 :: r2 =>
      have hc2 : ¬(c2 == '"') = true := by
        simp only [beq_iff_eq]
        intro hc
        exact h (by rw [hc]; rfl)
      simp [dupQuotes, parseQuotedBody, hc2]
  | cons c s ih =>
    by_cases hc : c = '"'
    · subst hc
      have hexp : dupQuotes ('"' :: s) ++ '"' :: rest =
          '"' :: '"' :: (dupQuotes s ++ '"' :: rest) := by
        simp [dupQuotes]
      rw [hexp]
      have hq : parseQuotedBody ('"' :: '"' :: (dupQuotes s ++ '"' :: rest)) =
          (parseQuotedBody (dupQuotes s ++ '"' :: rest)).map
            (fun p => ('"' :: p.1, p.2)) := rfl
      rw [hq, ih]
      rfl
    · have hcb : ¬(c == '"') = true := by simp [hc]
      have hexp : dupQuotes (c :: s) ++ '"' :: rest =
          c :: (dupQuotes s ++ '"' :: rest) := by
        simp [dupQuotes, hcb]
      rw [hexp]
      rw [parseQuotedBody.eq_def]
      simp only [hcb, if_false]
      rw [ih]
      rfl

theorem parseBareCell_spec (s rest : List Char)
    (hs : ∀ c ∈ s, c ≠ ',' ∧ c ≠ '\n')
    (hr : rest = [] ∨ rest.head? = some ',' ∨ rest.head? = some '\n') :
    parseBareCell (s ++ rest) = (s, rest) := by
  induction s with
  | nil =>
    rcases hr with h | h | h
    · subst h; rfl
    · match rest, h with
      | c :: r, h =>
        have : c = ',' := by simpa using h
        subst this
        simp [parseBareCell]
    · match rest, h with
      | c :: r, h =>
        have : c = '\n' := by simpa using h
        subst this
        simp [parseBareCell]
  | cons c s ih =>
    have hc := hs c (List.mem_cons_self c s)
    have hs2 : ∀ x ∈ s, x ≠ ',' ∧ x ≠ '\n' := fun x hx => hs x (List.mem_cons_of_mem c hx)
    have hcb : ¬(c == ',' || c == '\n') = true := by
      simp [hc.1, hc.2]
    simp only [List.cons_append]
    rw [parseBareCell, if_neg hcb, ih hs2]

theorem parseCell_escape (s rest : List Char)
    (hr : rest = [] ∨ rest.head? = some ',' ∨ rest.head? = some '\n') :
    parseCell (escapeCell s ++ rest) = some (s, rest) := by
  by_cases hq : s.any needsQuote = true
  · have hh : rest.head? ≠ some '"' := by
      rcases hr with h | h | h
      · subst h; simp
      · rw [h]; simp
      · rw [h]; simp
    unfold escapeCell
    rw [if_pos hq]
    simp only [List.cons_append, List.append_assoc]
    rw [parseCell]
    simp only [beq_self_eq_true, if_true]
    exact parseQuotedBody_dupQuotes s rest hh
  · have hall : ∀ c ∈ s, needsQuote c = false := by
      intro c hc
      by_contra hcc
      exact hq (List.any_eq_true.mpr ⟨c, hc, by revert hcc; cases needsQuote c <;> simp⟩)
    have hnc : ∀ c ∈ s, c ≠ ',' ∧ c ≠ '\n' ∧ c ≠ '"' := by
      intro c hc
      have := hall c hc
      unfold needsQuote at this
      refine ⟨?_, ?_, ?_⟩ <;> intro h <;> subst h <;> simp at this
    unfold escapeCell
    rw [if_neg hq]
    match s with
    | [] =>
      rcases hr with h | h | h
      · subst h; rfl
      · match rest, h with
        | c :: r, h =>
          have : c = ',' := by simpa using h
          subst this
          simp [parseCell, parseBareCell]
      · match rest, h with
        | c :: r, h =>
          have : c = '\n' := by simpa using h
          subst this
          simp [parseCell, parseBareCell]
    | c :: t =>
      have h3 := hnc c (List.mem_cons_self c t)
      have hcb : ¬(c == '"') = true := by simp [h3.2.2]
      simp only [List.cons_append]
      rw [parseCell, if_neg hcb]
      rw [← List.cons_append]
      rw [parseBareCell_spec (c :: t) rest (fun x hx => ⟨(hnc x hx).1, (hnc x hx).2.1⟩) hr]

theorem parseCells_render (cells : List (List Char)) (rest : List Char)
    (fuel : Nat) (hne : cells ≠ []) (hf : cells.length ≤ fuel) :
    parseCells fuel (renderRecord cells ++ '\n' :: rest) = some (cells, rest) := by
  induction cells generalizing fuel with
  | nil => exact absurd rfl hne
  | cons c cs ih =>
    cases fuel with
    | zero => simp at hf
    | succ f =>
      cases cs with
      | nil =>
        rw [renderRecord_single]
        rw [parseCells]
        rw [parseCell_escape c ('\n' :: rest) (Or.inr (Or.inr rfl))]
        rfl
      | cons c2 cs2 =>
        rw [renderRecord_cons₂]
        rw [parseCells]
        simp only [List.append_assoc, List.cons_append]
        rw [parseCell_escape c (',' :: (renderRecord (c2 :: cs2) ++ '\n' :: rest))
          (Or.inr (Or.inl rfl))]
        show (parseCells f (renderRecord (c2 :: cs2) ++ '\n' :: rest)).map
          (fun p => (c :: p.1, p.2)) = some (c :: c2 :: cs2, rest)
        rw [ih f (by simp) (by simpa using hf)]
        rfl

theorem renderRecord_length (cells : List (List Char)) :
    cells.length ≤ (renderRecord cells).length + 1 := by
  induction cells with
  | nil => simp [renderRecord]
  | cons c cs ih =>
    cases cs with
    | nil => simp
    | cons c2 cs2 =>
      rw [renderRecord_cons₂]
      simp only [List.length_append, List.length_cons]
      simp only [List.length_cons] at ih
      omega

theorem parseRecs_render (records : List (List (List Char))) (fuel : Nat)
    (h : ∀ r ∈ records, r ≠ []) (hf : records.length < fuel) :
    parseRecs fuel (renderCsv records) = some records := by
  induction records generalizing fuel with
  | nil =>
    cases fuel with
    | zero => omega
    | succ f => simp [renderCsv, parseRecs]
  | cons r rs ih =>
    cases fuel with
    | zero => omega
    | succ f =>
      have hrn : renderCsv (r :: rs) = renderRecord r ++ '\n' :: renderCsv rs := by
        simp [renderCsv]
      rw [hrn]
      rcases hcons : renderRecord r ++ '\n' :: renderCsv rs with _ | ⟨x, xs⟩
      · exact absurd hcons (by simp)
      · rw [← hcons]
        have hlen : r.length ≤ (renderRecord r ++ '\n' :: renderCsv rs).length + 1 := by
          have h1 := renderRecord_length r
          simp only [List.length_append, List.length_cons]
          omega
        have hstep : parseRecs (f + 1) (renderRecord r ++ '\n' :: renderCsv rs) =
            match parseCells ((renderRecord r ++ '\n' :: renderCsv rs).length + 1)
              (renderRecord r ++ '\n' :: renderCsv rs) with
            | Option.none => Option.none
            | some (cells, rest) => (parseRecs f rest).map (fun rs2 => cells :: rs2) := by
          rw [hcons]
          rfl
        rw [hstep]
        rw [parseCells_render r (renderCsv rs) _ (h r (List.mem_cons_self r rs)) hlen]
        show (parseRecs f (renderCsv rs)).map (fun rs2 => r :: rs2) = some (r :: rs)
        rw [ih f (fun x hx => h x (List.mem_cons_of_mem r hx)) (by simpa using hf)]
        rfl

theorem renderCsv_length (records : List (List (List Char))) :
    records.length ≤ (renderCsv records).length := by
  induction records with
  | nil => simp [renderCsv]
  | cons r rs ih =>
    have hrn : renderCsv (r :: rs) = renderRecord r ++ '\n' :: renderCsv rs := by
      simp [renderCsv]
    rw [hrn]
    simp only [List.length_append, List.length_cons]
    omega

theorem parseCsv_renderCsv (records : List (List (List Char)))
    (h : ∀ r ∈ records, r ≠ []) :
    parseCsv (renderCsv records) = some records := by
  unfold parseCsv
  exact parseRecs_render records _ h (by have := renderCsv_length records; omega)

/-! ## Lemmas: the results artifact round-trips -/

theorem parseBoolCell_boolReprPy (b : Bool) :
    parseBoolCell (boolReprPy b) = some b := by
  cases b <;> rfl

theorem extractRow_rowCells (b : Bool) (r : RowResult) :
    extractRow (rowCells b r) =
      some (r.order_id, r.tracking_ok, r.complete_ok) := by
  show (match parseIntCell (intRepr r.order_id),
      parseBoolCell (boolReprPy r.tracking_ok),
      parseBoolCell (boolReprPy r.complete_ok) with
    | some i, some t, some c => some (i, t, c)
    | _, _, _ => Option.none) = some (r.order_id, r.tracking_ok, r.complete_ok)
  rw [parseIntCell_intRepr, parseBoolCell_boolReprPy, parseBoolCell_boolReprPy]

theorem mapM_extractRow (b : Bool) (rs : List RowResult) :
    (rs.map (rowCells b)).mapM extractRow =
      some (rs.map (fun r => (r.order_id, r.tracking_ok, r.complete_ok))) := by
  induction rs with
  | nil => rfl
  | cons r rs ih =>
    simp only [List.map_cons, List.mapM_cons, extractRow_rowCells, ih]
    rfl

theorem rowCells_ne_nil (b : Bool) (r : RowResult) : rowCells b r ≠ [] := by
  simp [rowCells]

theorem csvRoundtripAux (b : Bool) (rs : List RowResult) :
    readBack (String.mk (renderCsv (headerCells :: rs.map (rowCells b)))) =
      some (rs.map (fun r => (r.order_id, r.tracking_ok, r.complete_ok))) := by
  unfold readBack
  have hdata : (String.mk (renderCsv (headerCells :: rs.map (rowCells b)))).data =
      renderCsv (headerCells :: rs.map (rowCells b)) := rfl
  rw [hdata]
  rw [parseCsv_renderCsv]
  · show (if headerCells = headerCells then (rs.map (rowCells b)).mapM extractRow
      else Option.none) =
      some (rs.map (fun r => (r.order_id, r.tracking_ok, r.complete_ok)))
    rw [if_pos rfl, mapM_extractRow]
  · intro x hx
    rcases List.mem_cons.mp hx with h | h
    · subst h; simp [headerCells]
    · obtain ⟨r, _, rfl⟩ := List.mem_map.mp h
      exact rowCells_ne_nil b r

theorem csvRoundtrip (rs : List RowResult) (h : rs ≠ []) :
    readBack (toCsvString rs) =
      some (rs.map (fun r => (r.order_id, r.tracking_ok, r.complete_ok))) := by
  match rs, h with
  | r :: rest, _ =>
    exact csvRoundtripAux
      ((r :: rest).any (fun x => x.complete_status.isNone)) (r :: rest)

/-! ## Lemmas: the bulk loop -/

theorem stepRow_spec (site : String) (http : HttpStub) (row : Row)
    (res : RowResult) (calls : List NetCall)
    (h : stepRow site http row = .ok (res, calls)) :
    (rowItem row "order_id").toIntPy = some res.order_id ∧
    res.tracking_ok = (res.tracking_status == 200 || res.tracking_status == 201) ∧
    (calls.filter isAttachCall).length = 1 ∧
    ((res.tracking_status = 200 ∨ res.tracking_status = 201) →
      calls.filter isCompleteCall =
        [NetCall.complete (orderUrl site res.order_id) res.order_id] ∧
      ∃ cs, res.complete_status = some cs ∧
        res.complete_ok = (cs == 200 || cs == 201)) ∧
    (¬(res.tracking_status = 200 ∨ res.tracking_status = 201) →
      calls.filter isCompleteCall = [] ∧
      res.complete_status = Option.none ∧
      res.complete_response = skippedMarker ∧
      res.complete_ok = false) := by
  rcases hco : (rowItem row "order_id").toIntPy with _ | oid
  · simp only [stepRow, hco] at h
    simp at h
  · rcases hpt : post_tracking site http row with e | ⟨⟨t_status, t_data⟩, attachCall⟩
    · simp only [stepRow, hco, hpt] at h
      simp at h
    · have hatt2 : isAttachCall attachCall = true := by
        rcases hbp : buildTrackingPayload row with e2 | pre
        · simp only [post_tracking, hco, hbp] at hpt
          simp at hpt
        · simp only [post_tracking, hco, hbp, Except.ok.injEq, Prod.mk.injEq] at hpt
          rw [← hpt.2]
          rfl
      have hattc : isCompleteCall attachCall = false := by
        cases attachCall with
        | attach u p => rfl
        | complete u o => simp [isAttachCall] at hatt2
      rcases hcomp : complete_order site http oid with ⟨⟨c_status, c_data⟩, cCall⟩
      have hcc : cCall = NetCall.complete (orderUrl site oid) oid := by
        have h2 : (complete_order site http oid).2 =
            NetCall.complete (orderUrl site oid) oid := rfl
        rw [hcomp] at h2
        exact h2
      subst hcc
      have hAC : isAttachCall (NetCall.complete (orderUrl site oid) oid) = false := rfl
      have hCC : isCompleteCall (NetCall.complete (orderUrl site oid) oid) = true := rfl
      cases hs : (t_status == 200 || t_status == 201) with
      | true =>
        simp only [stepRow, hco, hpt, hcomp, hs, if_true] at h
        obtain ⟨hres, hcalls⟩ := Prod.mk.injEq .. ▸ Except.ok.inj h
        subst hcalls
        subst hres
        have htl : (t_status = 200 ∨ t_status = 201) := by simpa using hs
        refine ⟨rfl, by simp [hs], ?_, ?_, ?_⟩
        · simp [List.filter_cons, hatt2, hAC]
        · intro _
          refine ⟨by simp [List.filter_cons, hattc, hCC], c_status, rfl, rfl⟩
        · intro hns
          exact absurd htl hns
      | false =>
        simp only [stepRow, hco, hpt, hcomp, hs, if_false, Bool.false_eq_true] at h
        obtain ⟨hres, hcalls⟩ := Prod.mk.injEq .. ▸ Except.ok.inj h
        subst hcalls
        subst hres
        have htl : ¬(t_status = 200 ∨ t_status = 201) := by simpa using hs
        refine ⟨rfl, by simp [hs], ?_, ?_, ?_⟩
        · simp [List.filter_cons, hatt2]
        · intro hok
          exact absurd hok htl
        · intro _
          exact ⟨by simp [List.filter_cons, hattc], rfl, rfl, rfl⟩

theorem runBulk_mem (site : String) (http : HttpStub) (rows : List Row)
    (res : RowResult) (calls : List NetCall)
    (h : (res, calls) ∈ (runBulk site http rows).1) :
    ∃ row ∈ rows, stepRow site http row = .ok (res, calls) := by
  induction rows with
  | nil => simp [runBulk] at h
  | cons row rest ih =>
    rw [runBulk] at h
    rcases hs : stepRow site http row with e | pr
    · rw [hs] at h
      simp at h
    · rw [hs] at h
      simp only [] at h
      rcases List.mem_cons.mp h with h1 | h1
      · exact ⟨row, List.mem_cons_self row rest, by rw [hs, h1]⟩
      · obtain ⟨row2, hm, hstep⟩ := ih h1
        exact ⟨row2, List.mem_cons_of_mem row hm, hstep⟩

theorem stepRow_ok_of_coercible (site : String) (http : HttpStub) (row : Row)
    (h : rowCoercible row = true) :
    ∃ pr, stepRow site http row = .ok pr := by
  unfold rowCoercible at h
  simp only [Bool.and_eq_true, Option.isSome_iff_exists] at h
  obtain ⟨⟨⟨oid, hoid⟩, ss, hss⟩, rt, hrt⟩ := h
  have hbp : ∃ pre, buildTrackingPayload row = .ok pre := by
    unfold buildTrackingPayload
    rw [hss, hrt]
    exact ⟨_, rfl⟩
  obtain ⟨pre, hbp⟩ := hbp
  have hpt : ∃ td ac, post_tracking site http row = .ok (td, ac) := by
    unfold post_tracking
    rw [hoid, hbp]
    exact ⟨_, _, rfl⟩
  obtain ⟨⟨t_status, t_data⟩, ac, hpt⟩ := hpt
  rcases hstep : stepRow site http row with e | pr
  · exfalso
    simp only [stepRow, hoid, hpt] at hstep
    cases hb : (t_status == 200 || t_status == 201) <;> rw [hb] at hstep <;> simp at hstep
  · exact ⟨pr, rfl⟩

theorem runBulk_ok_spec (site : String) (http : HttpStub) (rows : List Row)
    (h : ∀ row ∈ rows, rowCoercible row = true) :
    (runBulk site http rows).2 = Option.none ∧
    (runBulk site http rows).1.length = rows.length ∧
    (∀ i : Nat, ∀ row : Row, rows[i]? = some row →
      ∃ res calls, (runBulk site http rows).1[i]? = some (res, calls) ∧
        stepRow site http row = .ok (res, calls)) := by
  induction rows with
  | nil =>
    refine ⟨rfl, rfl, ?_⟩
    intro i row hrow
    simp at hrow
  | cons row rest ih =>
    obtain ⟨pr, hpr⟩ :=
      stepRow_ok_of_coercible site http row (h row (List.mem_cons_self row rest))
    have ih2 := ih (fun r hr => h r (List.mem_cons_of_mem _ hr))
    have hrb : runBulk site http (row :: rest) =
        (pr :: (runBulk site http rest).1, (runBulk site http rest).2) := by
      rw [runBulk, hpr]
    rw [hrb]
    refine ⟨ih2.1, by simp [ih2.2.1], ?_⟩
    intro i r hr
    cases i with
    | zero =>
      simp only [List.getElem?_cons_zero, Option.some.injEq] at hr
      subst hr
      exact ⟨pr.1, pr.2, by simp, by rw [hpr]⟩
    | succ n =>
      simp only [List.getElem?_cons_succ] at hr
      obtain ⟨res, calls, h1, h2⟩ := ih2.2.2 n r hr
      exact ⟨res, calls, by simpa using h1, h2⟩

theorem runBulk_append_err (site : String) (http : HttpStub) (rows₁ : List Row)
    (row : Row) (rows₂ : List Row) (e : CoercionError)
    (h1 : (runBulk site http rows₁).2 = Option.none)
    (h2 : stepRow site http row = .error e) :
    runBulk site http (rows₁ ++ row :: rows₂) =
      ((runBulk site http rows₁).1, some e) := by
  induction rows₁ with
  | nil =>
    have hL : runBulk site http (row :: rows₂) = ([], some e) := by
      rw [runBulk, h2]
    simp only [List.nil_append]
    rw [hL]
    rfl
  | cons r rs ih =>
    rcases hs : stepRow site http r with e2 | pr
    · rw [runBulk, hs] at h1
      simp at h1
    · have h1h : (runBulk site http rs).2 = Option.none := by
        rw [runBulk, hs] at h1
        simpa using h1
      simp only [List.cons_append]
      have hL : runBulk site http (r :: (rs ++ row :: rows₂)) =
          (pr :: (runBulk site http (rs ++ row :: rows₂)).1,
           (runBulk site http (rs ++ row :: rows₂)).2) := by
        rw [runBulk, hs]
      have hR : runBulk site http (r :: rs) =
          (pr :: (runBulk site http rs).1, (runBulk site http rs).2) := by
        rw [runBulk, hs]
      rw [hL, hR, ih h1h]

/-! ## Lemmas: row dict updates and default filling -/

theorem lookup_setValue (r : Row) (k : String) (v : Value) :
    List.lookup k (setValue r k v) = some v := by
  induction r with
  | nil => simp [setValue, List.lookup]
  | cons p r ih =>
    rcases p with ⟨pk, pv⟩
    unfold setValue at ih ⊢
    by_cases hp : pk = k
    · simp only [List.filter_cons, hp, beq_self_eq_true, Bool.not_true,
        Bool.false_eq_true, if_false]
      exact ih
    · have hne : (pk == k) = false := by simp [hp]
      simp only [List.filter_cons, hne, Bool.not_false, if_true, List.cons_append]
      rw [List.lookup_cons]
      have hne2 : (k == pk) = false := by simp [Ne.symm hp]
      rw [hne2]
      exact ih

theorem lookup_setValue_ne (r : Row) (k k2 : String) (v : Value) (h : k2 ≠ k) :
    List.lookup k2 (setValue r k v) = List.lookup k2 r := by
  induction r with
  | nil =>
    simp only [setValue, List.filter_nil, List.nil_append]
    rw [List.lookup_cons]
    have hne : (k2 == k) = false := by simp [h]
    rw [hne]
  | cons p r ih =>
    rcases p with ⟨pk, pv⟩
    unfold setValue at ih ⊢
    by_cases hp : pk = k
    · have hk2 : (k2 == k) = false := by simp [h]
      simp only [List.filter_cons, hp, beq_self_eq_true, Bool.not_true,
        Bool.false_eq_true, if_false]
      rw [ih]
      rw [List.lookup_cons, hk2]
    · have hne : (pk == k) = false := by simp [hp]
      simp only [List.filter_cons, hne, Bool.not_false, if_true, List.cons_append]
      rw [List.lookup_cons, List.lookup_cons]
      cases hk2 : (k2 == pk) with
      | true => rfl
      | false => exact ih

theorem fillDefaults_cols (df : DataFrame) :
    "status_shipped" ∈ (fillDefaults df).cols ∧
    "replace_tracking" ∈ (fillDefaults df).cols := by
  have hne : ("replace_tracking" : String) ≠ "status_shipped" := by decide
  by_cases h1 : "status_shipped" ∈ df.cols <;>
    by_cases h2 : "replace_tracking" ∈ df.cols <;>
    simp [fillDefaults, h1, h2, hne]

theorem fillDefaults_idem (df : DataFrame) :
    fillDefaults (fillDefaults df) = fillDefaults df := by
  obtain ⟨h1, h2⟩ := fillDefaults_cols df
  generalize hD : fillDefaults df = D at h1 h2 ⊢
  simp only [fillDefaults, h1, h2, if_true]

theorem fillDefaults_status (df : DataFrame) (h : "status_shipped" ∉ df.cols) :
    ∀ r ∈ (fillDefaults df).rows,
      List.lookup "status_shipped" r = some (Value.int 1) := by
  intro r hr
  unfold fillDefaults at hr
  simp only [h, if_false] at hr
  by_cases h2 : "replace_tracking" ∈ df.cols ++ ["status_shipped"]
  · simp only [h2, if_true] at hr
    obtain ⟨r0, _, rfl⟩ := List.mem_map.mp hr
    exact lookup_setValue r0 "status_shipped" (Value.int 1)
  · simp only [h2, if_false] at hr
    obtain ⟨r1, hr1, rfl⟩ := List.mem_map.mp hr
    obtain ⟨r0, _, rfl⟩ := List.mem_map.mp hr1
    rw [lookup_setValue_ne _ _ _ _ (by decide)]
    exact lookup_setValue r0 "status_shipped" (Value.int 1)

theorem fillDefaults_replace (df : DataFrame) (h : "replace_tracking" ∉ df.cols) :
    ∀ r ∈ (fillDefaults df).rows,
      List.lookup "replace_tracking" r = some (Value.int 0) := by
  intro r hr
  unfold fillDefaults at hr
  by_cases h1 : "status_shipped" ∈ df.cols
  · simp only [h1, if_true] at hr
    have h2 : "replace_tracking" ∉ df.cols := h
    simp only [h2, if_false] at hr
    obtain ⟨r0, _, rfl⟩ := List.mem_map.mp hr
    exact lookup_setValue r0 "replace_tracking" (Value.int 0)
  · simp only [h1, if_false] at hr
    have h2 : "replace_tracking" ∉ df.cols ++ ["status_shipped"] := by
      simp [h]
    simp only [h2, if_false] at hr
    obtain ⟨r1, hr1, rfl⟩ := List.mem_map.mp hr
    exact lookup_setValue r1 "replace_tracking" (Value.int 0)

theorem fillDefaults_rows_nil (df : DataFrame) (h : df.rows = []) :
    (fillDefaults df).rows = [] := by
  by_cases h1 : "status_shipped" ∈ df.cols <;>
    by_cases h2 : "replace_tracking" ∈ df.cols <;>
    simp [fillDefaults, h1, h2, h]

/-! ## Lemmas: validation and the pipeline gate -/

theorem validate_missing_iff (df : DataFrame) (c : String) :
    c ∈ (validate_df df).2 ↔
      (c ∈ ["order_id", "tracking_provider", "tracking_number"] ∧ c ∉ df.cols) := by
  simp [validate_df, List.mem_filter]

theorem validate_false (df : DataFrame)
    (h : ∃ c ∈ ["order_id", "tracking_provider", "tracking_number"], c ∉ df.cols) :
    (validate_df df).1 = false := by
  obtain ⟨c, hc, hn⟩ := h
  have hm : c ∈ (validate_df df).2 := (validate_missing_iff df c).mpr ⟨hc, hn⟩
  have hne := List.ne_nil_of_mem hm
  unfold validate_df at hne ⊢
  simp only [beq_eq_false_iff_ne, ne_eq]
  intro hlen
  exact hne (List.length_eq_zero.mp hlen)

theorem pipeline_stopped (site : String) (http : HttpStub) (df : DataFrame)
    (h : (validate_df df).1 = false) :
    pipeline site http df = .stopped (validate_df df).2 := by
  simp [pipeline, h]

/-! ## Lemmas: file suffix dispatch -/

theorem suffix_eq_of_length (s t l : List Char) (h1 : s <:+ l) (h2 : t <:+ l)
    (h : s.length = t.length) : s = t := by
  obtain ⟨a, ha⟩ := h1
  obtain ⟨b, hb⟩ := h2
  rw [← ha] at hb
  have hl : b.length = a.length := by
    have hc := congrArg List.length hb
    simp only [List.length_append] at hc
    omega
  exact ((List.append_inj hb hl).2).symm

theorem hasSuffix_json_of_xlsx (l : List Char) (h : ".xlsx".data <:+ l) :
    hasSuffix ".json".data l = false := by
  unfold hasSuffix
  simp only [decide_eq_false_iff_not]
  intro hj
  have heq := suffix_eq_of_length _ _ _ hj h (by decide)
  exact absurd heq (by decide)

theorem hasSuffix_csv_of_xlsx (l : List Char) (h : ".xlsx".data <:+ l) :
    hasSuffix ".csv".data l = false := by
  unfold hasSuffix
  simp only [decide_eq_false_iff_not]
  intro hc
  have hsub : ".csv".data <:+ ".xlsx".data :=
    List.suffix_of_suffix_length_le hc h (by decide)
  exact absurd hsub (by decide)

/-! ## The claims -/

/-- C1: for every row the bulk-update loop processes, if the attach call
returned status 200 or 201 then the completion PUT is issued exactly once
with that row order id; otherwise no completion PUT is issued and the
RowResult has a null completion status, the skipped marker as completion
response, and complete_ok false. -/
theorem claim_C1 (site : String) (http : HttpStub) (rows : List Row)
    (res : RowResult) (calls : List NetCall)
    (h : (res, calls) ∈ (runBulk site http rows).1) :
    ((res.tracking_status = 200 ∨ res.tracking_status = 201) →
      calls.filter isCompleteCall =
        [NetCall.complete (orderUrl site res.order_id) res.order_id]) ∧
    (¬(res.tracking_status = 200 ∨ res.tracking_status = 201) →
      calls.filter isCompleteCall = [] ∧
      res.complete_status = Option.none ∧
      res.complete_response = skippedMarker ∧
      res.complete_ok = false) := by
  obtain ⟨row, _, hstep⟩ := runBulk_mem site http rows res calls h
  obtain ⟨_, _, _, hsucc, hfail⟩ := stepRow_spec site http row res calls hstep
  exact ⟨fun hok => (hsucc hok).1, hfail⟩

/-- Witness for C1 at a concrete run: one row, attach answered 201. -/
theorem claim_C1_witness :
    (resOkW, callsOkW) ∈ (runBulk siteW httpOk [rowW]).1 ∧
    (((resOkW.tracking_status = 200 ∨ resOkW.tracking_status = 201) →
      callsOkW.filter isCompleteCall =
        [NetCall.complete (orderUrl siteW resOkW.order_id) resOkW.order_id]) ∧
    (¬(resOkW.tracking_status = 200 ∨ resOkW.tracking_status = 201) →
      callsOkW.filter isCompleteCall = [] ∧
      resOkW.complete_status = Option.none ∧
      resOkW.complete_response = skippedMarker ∧
      resOkW.complete_ok = false)) := by
  have hmem : (resOkW, callsOkW) ∈ (runBulk siteW httpOk [rowW]).1 :=
    List.mem_cons_self _ _
  exact ⟨hmem, claim_C1 siteW httpOk [rowW] resOkW callsOkW hmem⟩

/-- C2: when every row coerces, the loop emits exactly one result per input
row, in input order, for every oracle, with exactly one attach call and at
most one completion call per row; no failure status stops, skips or
retries anything. -/
theorem claim_C2 (site : String) (http : HttpStub) (rows : List Row)
    (h : ∀ row ∈ rows, rowCoercible row = true) :
    (runBulk site http rows).2 = Option.none ∧
    (runBulk site http rows).1.length = rows.length ∧
    (∀ i : Nat, ∀ row : Row, rows[i]? = some row →
      ∃ res calls oid,
        (runBulk site http rows).1[i]? = some (res, calls) ∧
        (rowItem row "order_id").toIntPy = some oid ∧
        res.order_id = oid ∧
        (calls.filter isAttachCall).length = 1 ∧
        (calls.filter isCompleteCall).length ≤ 1) := by
  obtain ⟨h1, h2, h3⟩ := runBulk_ok_spec site http rows h
  refine ⟨h1, h2, ?_⟩
  intro i row hrow
  obtain ⟨res, calls, hidx, hstep⟩ := h3 i row hrow
  obtain ⟨hoid, _, hone, hsucc, hfail⟩ := stepRow_spec site http row res calls hstep
  refine ⟨res, calls, res.order_id, hidx, hoid, rfl, hone, ?_⟩
  by_cases hok : (res.tracking_status = 200 ∨ res.tracking_status = 201)
  · rw [(hsucc hok).1]
    simp
  · rw [(hfail hok).1]
    simp

/-- Witness for C2 at a concrete run: two rows, every attach refused. -/
theorem claim_C2_witness :
    (∀ row ∈ [rowW, rowW], rowCoercible row = true) ∧
    ((runBulk siteW httpRefuse [rowW, rowW]).2 = Option.none ∧
    (runBulk siteW httpRefuse [rowW, rowW]).1.length = [rowW, rowW].length ∧
    (∀ i : Nat, ∀ row : Row, [rowW, rowW][i]? = some row →
      ∃ res calls oid,
        (runBulk siteW httpRefuse [rowW, rowW]).1[i]? = some (res, calls) ∧
        (rowItem row "order_id").toIntPy = some oid ∧
        res.order_id = oid ∧
        (calls.filter isAttachCall).length = 1 ∧
        (calls.filter isCompleteCall).length ≤ 1)) :=
  ⟨by decide, claim_C2 siteW httpRefuse [rowW, rowW] (by decide)⟩

/-- C3: a frame missing a required column fails validation with exactly the
missing required names, and the run stops before any remote call. -/
theorem claim_C3 (site : String) (http : HttpStub) (df : DataFrame)
    (h : ∃ c ∈ ["order_id", "tracking_provider", "tracking_number"], c ∉ df.cols) :
    (validate_df df).1 = false ∧
    (∀ c, c ∈ (validate_df df).2 ↔
      (c ∈ ["order_id", "tracking_provider", "tracking_number"] ∧ c ∉ df.cols)) ∧
    pipeline site http df = .stopped (validate_df df).2 ∧
    (pipeline site http df).netCalls = [] := by
  have hv := validate_false df h
  refine ⟨hv, fun c => validate_missing_iff df c, pipeline_stopped site http df hv, ?_⟩
  rw [pipeline_stopped site http df hv]
  rfl

/-- Witness for C3 at a concrete frame missing both tracking columns. -/
theorem claim_C3_witness :
    (∃ c ∈ ["order_id", "tracking_provider", "tracking_number"], c ∉ dfMissing.cols) ∧
    ((validate_df dfMissing).1 = false ∧
    (∀ c, c ∈ (validate_df dfMissing).2 ↔
      (c ∈ ["order_id", "tracking_provider", "tracking_number"] ∧ c ∉ dfMissing.cols)) ∧
    pipeline siteW httpOk dfMissing = .stopped (validate_df dfMissing).2 ∧
    (pipeline siteW httpOk dfMissing).netCalls = []) :=
  ⟨by decide, claim_C3 siteW httpOk dfMissing (by decide)⟩

/-- C4: a frame lacking status_shipped gets the uniform default 1 on every
row, one lacking replace_tracking gets 0, and the default-filling pass is
idempotent. -/
theorem claim_C4 (df : DataFrame) :
    ("status_shipped" ∉ df.cols →
      ∀ r ∈ (fillDefaults df).rows, rowGet r "status_shipped" = Value.int 1) ∧
    ("replace_tracking" ∉ df.cols →
      ∀ r ∈ (fillDefaults df).rows, rowGet r "replace_tracking" = Value.int 0) ∧
    fillDefaults (fillDefaults df) = fillDefaults df := by
  refine ⟨?_, ?_, fillDefaults_idem df⟩
  · intro h r hr
    unfold rowGet rowGetD
    rw [fillDefaults_status df h r hr]
  · intro h r hr
    unfold rowGet rowGetD
    rw [fillDefaults_replace df h r hr]

/-- Witness for C4 at a concrete frame lacking both optional columns. -/
theorem claim_C4_witness :
    ("status_shipped" ∉ dfOne.cols ∧
      ∀ r ∈ (fillDefaults dfOne).rows, rowGet r "status_shipped" = Value.int 1) ∧
    ("replace_tracking" ∉ dfOne.cols ∧
      ∀ r ∈ (fillDefaults dfOne).rows, rowGet r "replace_tracking" = Value.int 0) ∧
    fillDefaults (fillDefaults dfOne) = fillDefaults dfOne :=
  ⟨⟨by decide, (claim_C4 dfOne).1 (by decide)⟩,
   ⟨by decide, (claim_C4 dfOne).2.1 (by decide)⟩,
   (claim_C4 dfOne).2.2⟩

/-- C5: the attach request body omits the date_shipped field exactly when
its computed value is null (the row value is falsy), while the
replace_tracking field is kept with its computed integer value even when
that value is 0. -/
theorem claim_C5 (site : String) (http : HttpStub) (row : Row)
    (status : Nat) (data : Json) (url : String) (payload : List (String × Json))
    (h : post_tracking site http row = .ok ((status, data), .attach url payload)) :
    (("date_shipped" ∈ payload.map Prod.fst) ↔
      (rowGet row "date_shipped").truthy = true) ∧
    (∀ rv : Int, (rowGetD row "replace_tracking" (Value.int 0)).toIntPy = some rv →
      ("replace_tracking", Json.int rv) ∈ payload) := by
  rcases hoid : (rowItem row "order_id").toIntPy with _ | oid
  · simp only [post_tracking, hoid] at h
    exact absurd h (by simp)
  · rcases hss : (rowGetD row "status_shipped" (Value.int 1)).toIntPy with _ | ss
    · have hbp : buildTrackingPayload row = .error ⟨"status_shipped"⟩ := by
        unfold buildTrackingPayload
        rw [hss]
        rcases (rowGetD row "replace_tracking" (Value.int 0)).toIntPy with _ | rt0 <;> rfl
      simp only [post_tracking, hoid, hbp] at h
      exact absurd h (by simp)
    · rcases hrt : (rowGetD row "replace_tracking" (Value.int 0)).toIntPy with _ | rt
      · have hbp : buildTrackingPayload row = .error ⟨"replace_tracking"⟩ := by
          unfold buildTrackingPayload
          rw [hss, hrt]
        simp only [post_tracking, hoid, hbp] at h
        exact absurd h (by simp)
      · have hbp : buildTrackingPayload row = .ok
            [("tracking_provider", some (.str (rowItem row "tracking_provider").toStrPy)),
             ("tracking_number", some (.str (rowItem row "tracking_number").toStrPy)),
             ("date_shipped", if (rowGet row "date_shipped").truthy
                then some (.str (rowGet row "date_shipped").toStrPy) else Option.none),
             ("status_shipped", some (.int ss)),
             ("replace_tracking", some (.int rt))] := by
          unfold buildTrackingPayload
          rw [hss, hrt]
        simp only [post_tracking, hoid, hbp, Except.ok.injEq, Prod.mk.injEq,
          NetCall.attach.injEq] at h
        have hpay := h.2.2
        rw [← hpay]
        cases hds : (rowGet row "date_shipped").truthy with
        | true =>
          constructor
          · simp [hds]
          · intro rv hrv
            have hre : rt = rv := Option.some.inj hrv
            subst hre
            simp [hds]
        | false =>
          constructor
          · simp [hds]
          · intro rv hrv
            have hre : rt = rv := Option.some.inj hrv
            subst hre
            simp [hds]

/-- Witness for C5 at a concrete row with no date and the default 0 for
replace_tracking. -/
theorem claim_C5_witness :
    post_tracking siteW httpOk rowW =
      .ok ((201, Json.null), .attach (trackingUrl siteW 123) payloadW) ∧
    ((("date_shipped" ∈ payloadW.map Prod.fst) ↔
      (rowGet rowW "date_shipped").truthy = true) ∧
    (∀ rv : Int, (rowGetD rowW "replace_tracking" (Value.int 0)).toIntPy = some rv →
      ("replace_tracking", Json.int rv) ∈ payloadW)) := by
  have h : post_tracking siteW httpOk rowW =
      .ok ((201, Json.null), .attach (trackingUrl siteW 123) payloadW) := rfl
  exact ⟨h, claim_C5 siteW httpOk rowW 201 Json.null (trackingUrl siteW 123) payloadW h⟩

/-- C6 as stated is false: an uncaught coercion failure aborts the whole
run, not just the row.  At this input the first row has a non-integer-like
order_id and a valid second row follows; the loop returns no RowResult at
all, so the second row was neither processed nor given a result. -/
theorem claim_C6_counterexample :
    (runBulk siteW httpOk [rowBad, rowW]).1 = [] ∧
    (runBulk siteW httpOk [rowBad, rowW]).2 = some ⟨"order_id"⟩ :=
  ⟨rfl, rfl⟩

/-- C6 amended: a row whose order_id is not integer-like raises an uncaught
coercion failure that aborts the entire run: rows before it keep their
results, and neither that row nor any later row produces a RowResult. -/
theorem claim_C6_amended (site : String) (http : HttpStub) (rows₁ : List Row)
    (row : Row) (rows₂ : List Row)
    (h1 : (runBulk site http rows₁).2 = Option.none)
    (hco : (rowItem row "order_id").toIntPy = Option.none) :
    runBulk site http (rows₁ ++ row :: rows₂) =
      ((runBulk site http rows₁).1, some ⟨"order_id"⟩) := by
  have h2 : stepRow site http row = .error ⟨"order_id"⟩ := by
    unfold stepRow
    rw [hco]
  exact runBulk_append_err site http rows₁ row rows₂ _ h1 h2

/-- Witness for the amended C6: a good row, then the bad row, then another
good row; only the first row keeps a result. -/
theorem claim_C6_witness :
    (runBulk siteW httpOk [rowW]).2 = Option.none ∧
    (rowItem rowBad "order_id").toIntPy = Option.none ∧
    runBulk siteW httpOk ([rowW] ++ rowBad :: [rowW]) =
      ((runBulk siteW httpOk [rowW]).1, some ⟨"order_id"⟩) :=
  ⟨rfl, rfl, claim_C6_amended siteW httpOk [rowW] rowBad [rowW] rfl rfl⟩

/-- C7: an xlsx upload whose spreadsheet parse fails yields an empty frame
plus a diagnostic instead of propagating the failure. -/
theorem claim_C7 (name : String) (jsonRes csvRes : Except String DataFrame)
    (e : String)
    (h : hasSuffix ".xlsx".data ((strLower name).data) = true) :
    load_dataframe name jsonRes csvRes (.error e) =
      .ok (⟨[], []⟩, ["Excel read error. Install openpyxl. Details: " ++ e]) := by
  have hx : ".xlsx".data <:+ (strLower name).data := of_decide_eq_true h
  have hj := hasSuffix_json_of_xlsx _ hx
  have hc := hasSuffix_csv_of_xlsx _ hx
  simp only [load_dataframe, hj, hc, h, Bool.false_eq_true, if_false, if_true]

/-- Witness for C7 at a concrete mixed-case xlsx name. -/
theorem claim_C7_witness :
    hasSuffix ".xlsx".data ((strLower "Report.XLSX").data) = true ∧
    load_dataframe "Report.XLSX" (.ok dfEmpty) (.ok dfEmpty) (.error "corrupt") =
      .ok (⟨[], []⟩, ["Excel read error. Install openpyxl. Details: " ++ "corrupt"]) :=
  ⟨by decide, claim_C7 "Report.XLSX" (.ok dfEmpty) (.ok dfEmpty) "corrupt" (by decide)⟩

/-- C8 as stated is false at the empty result list: a frame built from no
results has no columns, its artifact is a single newline with no header,
and re-parsing that artifact fails instead of yielding the empty sequence. -/
theorem claim_C8_counterexample :
    toCsvString [] = String.mk ['\n'] ∧
    readBack (toCsvString []) = Option.none :=
  ⟨rfl, rfl⟩

/-- C8 amended: for every non-empty result list, exporting the CSV artifact
and re-parsing it recovers the order_id sequence and the tracking_ok and
complete_ok values; the empty result list exports a bare newline whose
re-parse fails. -/
theorem claim_C8_amended (results : List RowResult) (h : results ≠ []) :
    readBack (toCsvString results) =
      some (results.map (fun r => (r.order_id, r.tracking_ok, r.complete_ok))) :=
  csvRoundtrip results h

/-- Witness for the amended C8 at a concrete one-row result list. -/
theorem claim_C8_witness :
    ([resOkW] : List RowResult) ≠ [] ∧
    readBack (toCsvString [resOkW]) = some [(123, true, true)] :=
  ⟨by simp, claim_C8_amended [resOkW] (by simp)⟩

/-- C9: a result row has a null completion status exactly when its attach
failed, and a successful completion implies a successful attach. -/
theorem claim_C9 (site : String) (http : HttpStub) (rows : List Row)
    (res : RowResult) (calls : List NetCall)
    (h : (res, calls) ∈ (runBulk site http rows).1) :
    (res.complete_status = Option.none ↔ res.tracking_ok = false) ∧
    (res.complete_ok = true → res.tracking_ok = true) := by
  obtain ⟨row, _, hstep⟩ := runBulk_mem site http rows res calls h
  obtain ⟨_, htrk, _, hsucc, hfail⟩ := stepRow_spec site http row res calls hstep
  by_cases hok : (res.tracking_status = 200 ∨ res.tracking_status = 201)
  · obtain ⟨_, cs, hcs, _⟩ := hsucc hok
    have htt : res.tracking_ok = true := by
      rw [htrk]
      rcases hok with h1 | h1 <;> simp [h1]
    refine ⟨⟨fun hnone => ?_, fun hfalse => ?_⟩, fun _ => htt⟩
    · rw [hcs] at hnone
      exact absurd hnone (by simp)
    · rw [htt] at hfalse
      exact absurd hfalse (by simp)
  · obtain ⟨_, hnone, _, hco⟩ := hfail hok
    have htf : res.tracking_ok = false := by
      rw [htrk]
      push_neg at hok
      simp [hok.1, hok.2]
    refine ⟨⟨fun _ => htf, fun _ => hnone⟩, ?_⟩
    intro hc2
    rw [hco] at hc2
    exact absurd hc2 (by simp)

/-- Witness for C9 at a concrete run whose attach was refused. -/
theorem claim_C9_witness :
    (resRefuseW, callsRefuseW) ∈ (runBulk siteW httpRefuse [rowW]).1 ∧
    ((resRefuseW.complete_status = Option.none ↔ resRefuseW.tracking_ok = false) ∧
    (resRefuseW.complete_ok = true → resRefuseW.tracking_ok = true)) := by
  have hmem : (resRefuseW, callsRefuseW) ∈ (runBulk siteW httpRefuse [rowW]).1 :=
    List.mem_cons_self _ _
  exact ⟨hmem, claim_C9 siteW httpRefuse [rowW] resRefuseW callsRefuseW hmem⟩

/-- C10: a validated frame with no rows runs to completion with no remote
calls and an empty result list, and the frame built from that empty list
has no columns, so its exported artifact is a single newline containing no
data rows. -/
theorem claim_C10 (site : String) (http : HttpStub) (df : DataFrame)
    (h1 : df.rows = []) (h2 : (validate_df df).1 = true) :
    pipeline site http df = .finished [] (toCsvString []) ∧
    (pipeline site http df).netCalls = [] ∧
    toCsvString [] = String.mk ['\n'] := by
  have hrows := fillDefaults_rows_nil df h1
  have hrun : runBulk site http (fillDefaults df).rows = ([], Option.none) := by
    rw [hrows]
    rfl
  have hp : pipeline site http df = .finished [] (toCsvString []) := by
    simp only [pipeline, h2, if_true, hrun, List.map_nil]
  refine ⟨hp, ?_, rfl⟩
  rw [hp]
  rfl

/-- Witness for C10 at a concrete validated empty frame. -/
theorem claim_C10_witness :
    dfEmpty.rows = [] ∧ (validate_df dfEmpty).1 = true ∧
    (pipeline siteW httpOk dfEmpty = .finished [] (toCsvString []) ∧
    (pipeline siteW httpOk dfEmpty).netCalls = [] ∧
    toCsvString [] = String.mk ['\n']) :=
  ⟨rfl, rfl, claim_C10 siteW httpOk dfEmpty rfl rfl⟩
